import Mathlib

/-!
Shallow embedding of `src/app.py` (pdf_translator): block extraction,
translation with retry/backoff, concurrent block translation and
layout-preserving text re-fit.  Side effects that do not influence the
returned data (`print`, `time.sleep`) are recorded in traces where a claim
talks about them and dropped otherwise.  Python float arithmetic is
modelled as exact rational arithmetic (`PyRat`); float rounding error is
not modelled.
-/

namespace PdfApp

/-- An exact rational `num / den`, used to model Python float values and
arithmetic.  All operations are structural so that concrete instances
reduce inside the kernel.  Every value built by the embedding has a
positive denominator. -/
structure PyRat where
  num : Int
  den : Nat
deriving DecidableEq, Repr

/-- Multiplication of exact rationals. -/
def PyRat.mul (a b : PyRat) : PyRat := ⟨a.num * b.num, a.den * b.den⟩

/-- Division of exact rationals (the divisor's sign is moved into the
numerator so the denominator stays nonnegative).  Division by zero, which
raises `ZeroDivisionError` in Python, is outside the embedding's domain. -/
def PyRat.div (a b : PyRat) : PyRat :=
  if 0 ≤ b.num then ⟨a.num * b.den, a.den * b.num.toNat⟩
  else ⟨-(a.num * (b.den : Int)), a.den * (-b.num).toNat⟩

/-- Order on exact rationals with positive denominators, by
cross-multiplication. -/
def PyRat.le (a b : PyRat) : Prop := a.num * (b.den : Int) ≤ b.num * (a.den : Int)

instance (a b : PyRat) : Decidable (PyRat.le a b) :=
  inferInstanceAs (Decidable (_ ≤ _))

/-- Python `int(x)` on a float: truncation toward zero. -/
def PyRat.toInt (a : PyRat) : Int := Int.tdiv a.num a.den

/-- Python `math.ceil(x)`: the least integer `≥ x` (for positive
denominators). -/
def PyRat.ceil (a : PyRat) : Int := -(Int.fdiv (-a.num) a.den)

/-- The rational value denoted by a `PyRat`. -/
def PyRat.toRat (a : PyRat) : Rat := (a.num : Rat) / (a.den : Rat)

/-- Python `str.strip()` restricted to ASCII whitespace: drop whitespace
from both ends. -/
def pyStrip (s : String) : String :=
  String.mk (((s.data.dropWhile Char.isWhitespace).reverse.dropWhile
    Char.isWhitespace).reverse)

/-- A field of a raw PDF block as returned by `page.get_text("blocks")`:
either a numeric value (coordinates, block number, block type) or a string
(the text field). -/
inductive RawField where
  | num (v : PyRat)
  | str (s : String)
deriving DecidableEq, Repr

/-- Python `str(x)` on a raw field. -/
def RawField.toStr : RawField → String
  | .num v => toString v.num ++ "/" ++ toString v.den
  | .str s => s

/-- Python truthiness of a raw field (`if text ...`): a number is truthy
iff nonzero, a string iff non-empty. -/
def RawField.truthy : RawField → Bool
  | .num v => v.num != 0
  | .str s => s != ""

/-- The block dictionary built by `extract_blocks_from_pdf` and consumed by
`translate_blocks_deep` / `replace_blocks_in_pdf`:
`{"x0": ..., "y0": ..., "x1": ..., "y1": ..., "text": ...}`. -/
structure Block where
  x0 : RawField
  y0 : RawField
  x1 : RawField
  y1 : RawField
  text : String
deriving DecidableEq, Repr

/-- Body of the inner loop of `extract_blocks_from_pdf` (src/app.py lines
20-29): skip a raw block with fewer than 5 fields, destructure the first
five fields, keep the block iff the text field is truthy and its trimmed
string form is non-empty; a kept block stores the first four fields as
coordinates and the trimmed text. -/
def processRawBlock (block : List RawField) : Option Block :=
  if block.length < 5 then none
  else
    match block with
    | x0 :: y0 :: x1 :: y1 :: t :: _ =>
        if t.truthy && (pyStrip t.toStr != "") then
          some ⟨x0, y0, x1, y1, pyStrip t.toStr⟩
        else none
    | _ => none

/-- `extract_blocks_from_pdf` (src/app.py lines 12-33), with the PDF engine
abstracted as the list, per page, of the raw blocks
`page.get_text("blocks")` returns.  For each page the kept blocks are
appended in order. -/
def extract_blocks_from_pdf (pages : List (List (List RawField))) :
    List (List Block) :=
  pages.map (fun blocks => blocks.filterMap processRawBlock)

/-- One call to the translation backend
(`GoogleTranslator(...).translate(text)`), indexed by the attempt number:
`Except.error` models a raised exception, `Except.ok none` a `None` return,
`Except.ok (some s)` a returned string. -/
abbrev BackendCalls := Nat → Except Unit (Option String)

/-- Trace of one `translate_with_retry` invocation: the returned string,
the number of backend calls made, and the backoff delays passed to
`time.sleep`, in order. -/
structure RetryTrace where
  result : String
  calls : Nat
  sleeps : List PyRat
deriving DecidableEq, Repr

/-- The `for attempt in range(1, retries + 1)` loop of
`translate_with_retry` (src/app.py lines 45-59), recursing on the number of
remaining attempts (`fuel = retries + 1 - attempt`).  An attempt whose call
returns a falsy value (`None` or `""`) resolves to the source text; a
truthy return value is the result; an exception on the last attempt
(`attempt == retries`) resolves to the source text, otherwise
`sleep_between * 2 ** (attempt - 1)` is slept and the next attempt runs.
Exhausted fuel is the fall-through `return text` of line 60. -/
def retryFrom (calls : BackendCalls) (text : String) (retries : Nat)
    (sleep_between : PyRat) : Nat → Nat → RetryTrace
  | _, 0 => ⟨text, 0, []⟩
  | attempt, fuel + 1 =>
    match calls attempt with
    | .ok none => ⟨text, 1, []⟩
    | .ok (some t) => if t = "" then ⟨text, 1, []⟩ else ⟨t, 1, []⟩
    | .error _ =>
      if attempt = retries then ⟨text, 1, []⟩
      else
        let rest := retryFrom calls text retries sleep_between (attempt + 1) fuel
        ⟨rest.result, rest.calls + 1,
          sleep_between.mul ⟨2 ^ (attempt - 1), 1⟩ :: rest.sleeps⟩

/-- `translate_with_retry` (src/app.py lines 39-60): empty text returns
`""` without any backend call; otherwise the retry loop runs from
attempt 1.  The defaults are `retries=3` and `sleep_between=0.5`. -/
def translate_with_retry (calls : BackendCalls) (text : String)
    (retries : Nat := 3) (sleep_between : PyRat := ⟨1, 2⟩) : RetryTrace :=
  if text = "" then ⟨"", 0, []⟩
  else retryFrom calls text retries sleep_between 1 retries

/-- A translation backend for the whole document: the call sequence seen by
the task of block `(p_idx, b_idx)`.  Tasks are independent in
`translate_blocks_deep` (each worker builds its own translator), so the
backend is modelled per task. -/
abbrev DocBackend := Nat → Nat → BackendCalls

/-- The state of `translated_map` after the `as_completed` loop of
`translate_blocks_deep` (src/app.py lines 73-91): every task
`(p_idx, b_idx, text)` writes a unique key, every future is awaited, and
`translate_with_retry` never raises, so the finished map holds — for
exactly the valid identities — the retry result of the block's text,
independent of completion order. -/
def translated_map (backend : DocBackend) (pages_blocks : List (List Block))
    (p_idx b_idx : Nat) : Option String :=
  match (pages_blocks.get? p_idx).bind (fun pb => pb.get? b_idx) with
  | some block => some (translate_with_retry (backend p_idx b_idx) block.text).result
  | none => none

/-- Inner reassembly loop of `translate_blocks_deep` (src/app.py lines
95-104) over one page, carrying the running `b_idx`:
`new_text = translated_map.get((p_idx, b_idx), block["text"])`, and the
output dict copies the four coordinates and stores
`new_text if new_text else ""`. -/
def reassemblePage (tmap : Nat → Nat → Option String) (p_idx : Nat) :
    Nat → List Block → List Block
  | _, [] => []
  | b_idx, block :: rest =>
    let new_text := (tmap p_idx b_idx).getD block.text
    { block with text := if new_text = "" then "" else new_text } ::
      reassemblePage tmap p_idx (b_idx + 1) rest

/-- Outer reassembly loop of `translate_blocks_deep` (src/app.py lines
93-107), carrying the running `p_idx`. -/
def reassemble (tmap : Nat → Nat → Option String) :
    Nat → List (List Block) → List (List Block)
  | _, [] => []
  | p_idx, page_blocks :: rest =>
    reassemblePage tmap p_idx 0 page_blocks :: reassemble tmap (p_idx + 1) rest

/-- `translate_blocks_deep` (src/app.py lines 66-107): translate every
block's text with `translate_with_retry` (under its defaults) and
reassemble the page structure from the result map. -/
def translate_blocks_deep (backend : DocBackend)
    (pages_blocks : List (List Block)) : List (List Block) :=
  reassemble (translated_map backend pages_blocks) 0 pages_blocks

/-- Trace of one `insert_textbox_fitted` invocation: the font sizes passed
to `page.insert_textbox` in call order, the number of iterations of the
font-fit `while` loop that ran, and whether an exception escaped to the
caller. -/
structure FitTrace where
  inserts : List Nat
  iterations : Nat
  raised : Bool
deriving DecidableEq, Repr

/-- The estimated height needed at a candidate font size (src/app.py lines
131-134): `est_chars_per_line = max(20, int(rect_w / (fontsize * 0.5)))`,
`estimated_lines = math.ceil(total_chars / est_chars_per_line)`,
`needed_height = estimated_lines * fontsize * line_spacing_mult`. -/
def neededHeight (rect_w : PyRat) (total_chars : Nat)
    (line_spacing_mult : PyRat) (fontsize : Nat) : PyRat :=
  let est_chars_per_line : Nat :=
    max 20 (rect_w.div (PyRat.mul ⟨fontsize, 1⟩ ⟨1, 2⟩)).toInt.toNat
  let estimated_lines : Nat :=
    (PyRat.div ⟨total_chars, 1⟩ ⟨est_chars_per_line, 1⟩).ceil.toNat
  PyRat.mul (PyRat.mul ⟨estimated_lines, 1⟩ ⟨fontsize, 1⟩) line_spacing_mult

/-- The `while fontsize >= min_fontsize` loop of `insert_textbox_fitted`
(src/app.py lines 130-145), with `page.insert_textbox` abstracted as
`engineOk fontsize` (`false` = the engine raises at that size).  On commit,
insertion at the committed size is tried; on failure one unprotected
insertion at `min_fontsize` follows (an exception there escapes, recorded
as `raised`).  When the loop exits without committing (only possible when
it is never entered, `fontsize < min_fontsize`), line 145 makes one
unprotected insertion at `min_fontsize`; the structural `fuel` argument
(always called with `fuel > fontsize`, so it never runs out before
`fontsize` drops below `min_fontsize`) shares that exit. -/
def fitLoop (engineOk : Nat → Bool) (rect_w rect_h : PyRat)
    (total_chars : Nat) (min_fontsize : Nat) (line_spacing_mult : PyRat) :
    Nat → Nat → FitTrace
  | 0, _ => ⟨[min_fontsize], 0, !engineOk min_fontsize⟩
  | fuel + 1, fontsize =>
    if min_fontsize ≤ fontsize then
      if (neededHeight rect_w total_chars line_spacing_mult fontsize).le rect_h
          ∨ fontsize = min_fontsize then
        if engineOk fontsize then ⟨[fontsize], 1, false⟩
        else ⟨[fontsize, min_fontsize], 1, !engineOk min_fontsize⟩
      else
        let rest := fitLoop engineOk rect_w rect_h total_chars min_fontsize
          line_spacing_mult fuel (fontsize - 1)
        ⟨rest.inserts, rest.iterations + 1, rest.raised⟩
    else ⟨[min_fontsize], 0, !engineOk min_fontsize⟩

/-- `insert_textbox_fitted` (src/app.py lines 113-145): empty or
whitespace-only text returns without any insertion; otherwise the text is
trimmed, `total_chars = len(text)` counts the trimmed text, and the fit
loop runs from `initial_fontsize`.  The defaults are `initial_fontsize=10`,
`min_fontsize=6` and `line_spacing_mult=1.15`. -/
def insert_textbox_fitted (engineOk : Nat → Bool) (rect_w rect_h : PyRat)
    (text : String) (initial_fontsize : Nat := 10) (min_fontsize : Nat := 6)
    (line_spacing_mult : PyRat := ⟨23, 20⟩) : FitTrace :=
  if pyStrip text = "" then ⟨[], 0, false⟩
  else fitLoop engineOk rect_w rect_h (pyStrip text).length min_fontsize
    line_spacing_mult (initial_fontsize + 1) initial_fontsize

/-! ### Lemmas about the retry loop -/

lemma retryFrom_allFail (calls : BackendCalls) (text : String) (retries : Nat)
    (sb : PyRat) (hcalls : ∀ i, calls i = .error ()) :
    ∀ fuel attempt, (retryFrom calls text retries sb attempt fuel).result = text := by
  intro fuel
  induction fuel with
  | zero => intro attempt; rfl
  | succ fuel ih =>
    intro attempt
    simp only [retryFrom, hcalls]
    by_cases h : attempt = retries
    · simp [h]
    · simp [h, ih]

lemma retryFrom_ok_some_ne (calls : BackendCalls) (text : String) (retries : Nat)
    (sb : PyRat) (attempt fuel : Nat) (t : String)
    (h : calls attempt = .ok (some t)) (ht : t ≠ "") :
    retryFrom calls text retries sb attempt (fuel + 1) = ⟨t, 1, []⟩ := by
  simp [retryFrom, h, ht]

lemma retryFrom_ok_falsy (calls : BackendCalls) (text : String) (retries : Nat)
    (sb : PyRat) (attempt fuel : Nat) (r : Option String)
    (h : calls attempt = .ok r) (hr : r = none ∨ r = some "") :
    retryFrom calls text retries sb attempt (fuel + 1) = ⟨text, 1, []⟩ := by
  rcases hr with hr | hr <;> simp [retryFrom, h, hr]

/-- Running the loop from `attempt` when the calls at
`attempt, ..., attempt + k - 1` all raise: the loop makes those `k` calls,
sleeping `sleep_between * 2 ** (i - 1)` after the `i`-th, and continues
from `attempt + k`. -/
lemma retryFrom_failPrefix (calls : BackendCalls) (text : String)
    (retries : Nat) (sb : PyRat) :
    ∀ k attempt, 1 ≤ attempt → attempt + k ≤ retries →
    (∀ i, attempt ≤ i → i < attempt + k → calls i = .error ()) →
    retryFrom calls text retries sb attempt (retries + 1 - attempt) =
      ⟨(retryFrom calls text retries sb (attempt + k)
          (retries + 1 - (attempt + k))).result,
       k + (retryFrom calls text retries sb (attempt + k)
          (retries + 1 - (attempt + k))).calls,
       (List.range' attempt k).map (fun i => sb.mul ⟨2 ^ (i - 1), 1⟩) ++
         (retryFrom calls text retries sb (attempt + k)
           (retries + 1 - (attempt + k))).sleeps⟩ := by
  intro k
  induction k with
  | zero => intro attempt _ _ _; simp
  | succ k ih =>
    intro attempt h1 hle hfail
    have hfuel : retries + 1 - attempt = (retries - attempt) + 1 := by omega
    rw [hfuel]
    simp only [retryFrom, hfail attempt le_rfl (by omega)]
    have hne : ¬ attempt = retries := by omega
    simp only [hne, if_false]
    have hfuel2 : retries - attempt = retries + 1 - (attempt + 1) := by omega
    rw [hfuel2, ih (attempt + 1) (by omega) (by omega)
      (fun i hi hi2 => hfail i (by omega) (by omega))]
    have harr : attempt + 1 + k = attempt + (k + 1) := by omega
    rw [harr, List.range'_succ]
    simp [Nat.add_comm, Nat.add_assoc, Nat.add_left_comm]

/-- `retryFrom_failPrefix` with the fuel given as an explicit argument, for
rewriting at use sites where the fuel is not syntactically
`retries + 1 - attempt`. -/
lemma retryFrom_failPrefix' (calls : BackendCalls) (text : String)
    (retries : Nat) (sb : PyRat) (k attempt fuel : Nat)
    (hfuel : fuel = retries + 1 - attempt)
    (h1 : 1 ≤ attempt) (hle : attempt + k ≤ retries)
    (hfail : ∀ i, attempt ≤ i → i < attempt + k → calls i = .error ()) :
    retryFrom calls text retries sb attempt fuel =
      ⟨(retryFrom calls text retries sb (attempt + k)
          (retries + 1 - (attempt + k))).result,
       k + (retryFrom calls text retries sb (attempt + k)
          (retries + 1 - (attempt + k))).calls,
       (List.range' attempt k).map (fun i => sb.mul ⟨2 ^ (i - 1), 1⟩) ++
         (retryFrom calls text retries sb (attempt + k)
           (retries + 1 - (attempt + k))).sleeps⟩ := by
  subst hfuel
  exact retryFrom_failPrefix calls text retries sb k attempt h1 hle hfail

/-- The result of the retry loop is either the source text or a non-empty
string returned by some backend call. -/
lemma retryFrom_result_cases (calls : BackendCalls) (text : String)
    (retries : Nat) (sb : PyRat) :
    ∀ fuel attempt,
    (retryFrom calls text retries sb attempt fuel).result = text ∨
    ∃ a t, calls a = .ok (some t) ∧ t ≠ "" ∧
      (retryFrom calls text retries sb attempt fuel).result = t := by
  intro fuel
  induction fuel with
  | zero => intro attempt; left; rfl
  | succ fuel ih =>
    intro attempt
    rcases hc : calls attempt with e | r
    · by_cases h : attempt = retries
      · left; subst h; simp [retryFrom, hc]
      · have hstep : (retryFrom calls text retries sb attempt (fuel + 1)).result
            = (retryFrom calls text retries sb (attempt + 1) fuel).result := by
          simp [retryFrom, hc, h]
        rw [hstep]
        exact ih (attempt + 1)
    · rcases r with _ | t
      · left; simp [retryFrom, hc]
      · by_cases ht : t = ""
        · left; simp [retryFrom, hc, ht]
        · right; exact ⟨attempt, t, hc, ht, by simp [retryFrom, hc, ht]⟩

lemma translate_with_retry_result_cases (calls : BackendCalls) (text : String)
    (retries : Nat) (sb : PyRat) :
    (translate_with_retry calls text retries sb).result = text ∨
    ∃ a t, calls a = .ok (some t) ∧ t ≠ "" ∧
      (translate_with_retry calls text retries sb).result = t := by
  unfold translate_with_retry
  by_cases h : text = ""
  · simp [h]
  · simp only [h, if_false]
    exact retryFrom_result_cases calls text retries sb retries 1

lemma translate_with_retry_result_ne (calls : BackendCalls) (text : String)
    (retries : Nat) (sb : PyRat) (htext : text ≠ "") :
    (translate_with_retry calls text retries sb).result ≠ "" := by
  rcases translate_with_retry_result_cases calls text retries sb with
    h | ⟨a, t, _, ht, h⟩ <;> rw [h] <;> assumption

/-! ### Lemmas about reassembly -/

lemma reassemblePage_get? (tmap : Nat → Nat → Option String) (p_idx : Nat) :
    ∀ (blks : List Block) (b0 j : Nat),
    (reassemblePage tmap p_idx b0 blks).get? j =
      (blks.get? j).map (fun blk =>
        { blk with text :=
            let nt := (tmap p_idx (b0 + j)).getD blk.text
            if nt = "" then "" else nt }) := by
  intro blks
  induction blks with
  | nil => intro b0 j; simp [reassemblePage]
  | cons blk rest ih =>
    intro b0 j
    cases j with
    | zero => simp [reassemblePage]
    | succ j =>
      simp only [reassemblePage, List.get?_cons_succ, ih (b0 + 1) j]
      have : b0 + 1 + j = b0 + (j + 1) := by omega
      rw [this]

lemma reassemble_get? (tmap : Nat → Nat → Option String) :
    ∀ (pages : List (List Block)) (p0 i : Nat),
    (reassemble tmap p0 pages).get? i =
      (pages.get? i).map (reassemblePage tmap (p0 + i) 0) := by
  intro pages
  induction pages with
  | nil => intro p0 i; simp [reassemble]
  | cons page rest ih =>
    intro p0 i
    cases i with
    | zero => simp [reassemble]
    | succ i =>
      simp only [reassemble, List.get?_cons_succ, ih (p0 + 1) i]
      have : p0 + 1 + i = p0 + (i + 1) := by omega
      rw [this]

lemma reassemblePage_length (tmap : Nat → Nat → Option String) (p_idx : Nat) :
    ∀ (blks : List Block) (b0 : Nat),
    (reassemblePage tmap p_idx b0 blks).length = blks.length := by
  intro blks
  induction blks with
  | nil => intro b0; rfl
  | cons blk rest ih => intro b0; simp [reassemblePage, ih]

lemma reassemble_length (tmap : Nat → Nat → Option String) :
    ∀ (pages : List (List Block)) (p0 : Nat),
    (reassemble tmap p0 pages).length = pages.length := by
  intro pages
  induction pages with
  | nil => intro p0; rfl
  | cons page rest ih => intro p0; simp [reassemble, ih]

/-- The output block at identity `(p, b)` of `translate_blocks_deep`: the
coordinates of the input block, and its text run through
`translate_with_retry` under the defaults. -/
lemma translate_blocks_deep_get? (backend : DocBackend)
    (pages : List (List Block)) (p b : Nat) (page : List Block) (blk : Block)
    (hp : pages.get? p = some page) (hb : page.get? b = some blk) :
    ∃ opage, (translate_blocks_deep backend pages).get? p = some opage ∧
      opage.get? b = some
        { blk with text :=
            let nt := (translate_with_retry (backend p b) blk.text).result
            if nt = "" then "" else nt } := by
  unfold translate_blocks_deep
  rw [reassemble_get?]
  refine ⟨_, by rw [hp]; rfl, ?_⟩
  rw [reassemblePage_get?]
  rw [hb]
  simp only [Nat.zero_add, Option.map_some]
  have hm : translated_map backend pages p b =
      some (translate_with_retry (backend p b) blk.text).result := by
    unfold translated_map
    rw [hp, Option.some_bind, hb]
  rw [hm]
  rfl

/-! ### C2: always-failing backend falls back to the source text -/

/-- Claim C2: for every non-empty source text, if the backend raises on
every call then `translate_with_retry` returns the original source text
(the embedding is a total function: no exception reaches the caller), and
consequently with an always-failing backend every block of the
`translate_blocks_deep` output carries its source text. -/
theorem claim2_fallback_on_always_failing_backend
    (calls : BackendCalls) (text : String) (retries : Nat) (sb : PyRat)
    (backend : DocBackend) (pages : List (List Block))
    (hcalls : ∀ a, calls a = .error ()) (htext : text ≠ "")
    (hbackend : ∀ p b a, backend p b a = .error ()) :
    (translate_with_retry calls text retries sb).result = text ∧
    (∀ p b page blk opage oblk, pages.get? p = some page →
      page.get? b = some blk →
      (translate_blocks_deep backend pages).get? p = some opage →
      opage.get? b = some oblk → oblk.text = blk.text) := by
  constructor
  · unfold translate_with_retry
    simp only [htext, if_false]
    exact retryFrom_allFail calls text retries sb hcalls retries 1
  · intro p b page blk opage oblk hp hb hop hob
    obtain ⟨opage', hop', hob'⟩ := translate_blocks_deep_get? backend pages p b page blk hp hb
    rw [hop'] at hop
    cases hop
    rw [hob'] at hob
    cases hob
    show (let nt := (translate_with_retry (backend p b) blk.text).result
      if nt = "" then "" else nt) = blk.text
    have hres : (translate_with_retry (backend p b) blk.text).result = blk.text := by
      unfold translate_with_retry
      by_cases hbt : blk.text = ""
      · simp [hbt]
      · simp only [hbt, if_false]
        exact retryFrom_allFail (backend p b) blk.text 3 ⟨1, 2⟩ (hbackend p b) 3 1
    simp only [hres]
    by_cases hbt : blk.text = "" <;> simp [hbt]

/-- Witness for C2 at a concrete always-failing backend. -/
theorem claim2_witness :
    (∀ a : Nat, (fun _ : Nat => (Except.error () : Except Unit (Option String))) a
      = .error ()) ∧
    ("Bonjour" : String) ≠ "" ∧
    (translate_with_retry (fun _ => .error ()) "Bonjour" 3 ⟨1, 2⟩).result = "Bonjour" := by
  refine ⟨fun _ => rfl, by decide, ?_⟩
  exact (claim2_fallback_on_always_failing_backend
    (fun _ => .error ()) "Bonjour" 3 ⟨1, 2⟩
    (fun _ _ _ => .error ()) []
    (fun _ => rfl) (by decide) (fun _ _ _ => rfl)).1

/-! ### C3: retry bound and backoff schedule -/

/-- Claim C3: with a backend that raises on exactly its first `k` calls,
`k < retries`, and returns a non-empty translation on call `k + 1`,
`translate_with_retry` makes exactly `k + 1` backend calls, returns that
translation, and the delay slept before attempt `i` (the `(i-2)`-th sleep,
for `2 ≤ i ≤ k + 1`) is `sleep_between * 2 ^ (i - 2)`. -/
theorem claim3_retry_bound_and_backoff (calls : BackendCalls)
    (text t : String) (k retries : Nat) (sb : PyRat)
    (htext : text ≠ "") (hk : k < retries)
    (hfail : ∀ i, 1 ≤ i → i ≤ k → calls i = .error ())
    (hsucc : calls (k + 1) = .ok (some t)) (ht : t ≠ "") :
    (translate_with_retry calls text retries sb).calls = k + 1 ∧
    (translate_with_retry calls text retries sb).result = t ∧
    (translate_with_retry calls text retries sb).sleeps.length = k ∧
    (∀ i, 2 ≤ i → i ≤ k + 1 →
      (translate_with_retry calls text retries sb).sleeps.get? (i - 2) =
        some (sb.mul ⟨2 ^ (i - 2), 1⟩)) := by
  have htr : translate_with_retry calls text retries sb =
      ⟨t, k + 1, (List.range' 1 k).map (fun i => sb.mul ⟨2 ^ (i - 1), 1⟩)⟩ := by
    unfold translate_with_retry
    simp only [htext, if_false]
    rw [retryFrom_failPrefix' calls text retries sb k 1 retries (by omega)
      le_rfl (by omega) (fun i hi hi2 => hfail i hi (by omega))]
    have h3 : retries + 1 - (1 + k) = (retries - k - 1) + 1 := by omega
    have h2 : 1 + k = k + 1 := by omega
    rw [h3, h2, retryFrom_ok_some_ne calls text retries sb (k + 1)
      (retries - k - 1) t hsucc ht]
    simp
  rw [htr]
  refine ⟨rfl, rfl, by simp, ?_⟩
  intro i h2i hik
  rw [List.get?_eq_getElem?, List.getElem?_map,
    List.getElem?_range' 1 1 (by omega : i - 2 < k)]
  have hexp : 1 + 1 * (i - 2) - 1 = i - 2 := by omega
  simp [hexp]

/-- Witness for C3 with one failing call then a successful one. -/
theorem claim3_witness :
    (("Bonjour" : String) ≠ "" ∧ 1 < 3) ∧
    (translate_with_retry
        (fun a => if a ≤ 1 then .error () else .ok (some "Hello"))
        "Bonjour" 3 ⟨1, 2⟩).calls = 2 ∧
    (translate_with_retry
        (fun a => if a ≤ 1 then .error () else .ok (some "Hello"))
        "Bonjour" 3 ⟨1, 2⟩).result = "Hello" := by
  have h := claim3_retry_bound_and_backoff
    (fun a => if a ≤ 1 then .error () else .ok (some "Hello"))
    "Bonjour" "Hello" 1 3 ⟨1, 2⟩ (by decide) (by decide)
    (fun i hi hi2 => by
      have : i = 1 := by omega
      subst this
      rfl)
    rfl (by decide)
  exact ⟨⟨by decide, by decide⟩, h.1, h.2.1⟩

/-! ### C4: number of attempts before falling back (corrected) -/

/-- Counterexample to claim C4: with the default `retries = 3` and a
backend that raises on exactly its first 3 calls and would return "Hello"
on the 4th, `translate_with_retry` never makes a 4th call: it makes exactly
3 calls and falls back to the source text instead of returning the
translation. -/
theorem claim4_retry_count_counterexample :
    (translate_with_retry
        (fun a => if a ≤ 3 then .error () else .ok (some "Hello"))
        "Bonjour" 3 ⟨1, 2⟩).result ≠ "Hello" ∧
    (translate_with_retry
        (fun a => if a ≤ 3 then .error () else .ok (some "Hello"))
        "Bonjour" 3 ⟨1, 2⟩).result = "Bonjour" ∧
    (translate_with_retry
        (fun a => if a ≤ 3 then .error () else .ok (some "Hello"))
        "Bonjour" 3 ⟨1, 2⟩).calls = 3 := by
  decide

/-- Claim C4 as amended: `retries` (default 3) is the total number of
attempts, so an exception is retried at most `retries - 1` times.  For a
non-empty text: a backend raising on exactly its first `retries - 1` calls
and returning a non-empty translation on call `retries` yields that
translation after exactly `retries` calls; a backend raising on its first
`retries` calls yields the source text after exactly `retries` calls — the
`(retries + 1)`-th call is never made. -/
theorem claim4_amended_total_attempts (calls : BackendCalls)
    (text t : String) (retries : Nat) (sb : PyRat)
    (htext : text ≠ "") (hr : 1 ≤ retries) :
    ((∀ i, 1 ≤ i → i < retries → calls i = .error ()) →
      calls retries = .ok (some t) → t ≠ "" →
      (translate_with_retry calls text retries sb).result = t ∧
      (translate_with_retry calls text retries sb).calls = retries) ∧
    ((∀ i, 1 ≤ i → i ≤ retries → calls i = .error ()) →
      (translate_with_retry calls text retries sb).result = text ∧
      (translate_with_retry calls text retries sb).calls = retries) := by
  have hpre : ∀ (h : ∀ i, 1 ≤ i → i < retries → calls i = .error ()),
      retryFrom calls text retries sb 1 retries =
      ⟨(retryFrom calls text retries sb retries 1).result,
       (retries - 1) + (retryFrom calls text retries sb retries 1).calls,
       (List.range' 1 (retries - 1)).map (fun i => sb.mul ⟨2 ^ (i - 1), 1⟩) ++
         (retryFrom calls text retries sb retries 1).sleeps⟩ := by
    intro h
    rw [retryFrom_failPrefix' calls text retries sb (retries - 1) 1 retries
      (by omega) le_rfl (by omega) (fun i hi hi2 => h i hi (by omega))]
    have h3 : retries + 1 - (1 + (retries - 1)) = 1 := by omega
    have h2 : 1 + (retries - 1) = retries := by omega
    rw [h3, h2]
  constructor
  · intro hfail hsucc ht
    have hstep : retryFrom calls text retries sb retries 1 = ⟨t, 1, []⟩ :=
      retryFrom_ok_some_ne calls text retries sb retries 0 t hsucc ht
    unfold translate_with_retry
    simp only [htext, if_false]
    rw [hpre hfail, hstep]
    exact ⟨rfl, by show retries - 1 + 1 = retries; omega⟩
  · intro hfail
    have hstep : retryFrom calls text retries sb retries 1 = ⟨text, 1, []⟩ := by
      simp [retryFrom, hfail retries (by omega) le_rfl]
    unfold translate_with_retry
    simp only [htext, if_false]
    rw [hpre (fun i hi hi2 => hfail i hi (by omega)), hstep]
    exact ⟨rfl, by show retries - 1 + 1 = retries; omega⟩

/-- Witness for the amended C4 at `retries = 3`: two failures then a
success on the third call yields the translation in 3 calls; three failures
yield the source text in 3 calls. -/
theorem claim4_amended_witness :
    (("Bonjour" : String) ≠ "" ∧ 1 ≤ 3) ∧
    ((translate_with_retry
        (fun a => if a ≤ 2 then .error () else .ok (some "Hello"))
        "Bonjour" 3 ⟨1, 2⟩).result = "Hello" ∧
     (translate_with_retry
        (fun a => if a ≤ 2 then .error () else .ok (some "Hello"))
        "Bonjour" 3 ⟨1, 2⟩).calls = 3) := by
  refine ⟨⟨by decide, by decide⟩, ?_⟩
  exact (claim4_amended_total_attempts
    (fun a => if a ≤ 2 then .error () else .ok (some "Hello"))
    "Bonjour" "Hello" 3 ⟨1, 2⟩ (by decide) (by decide)).1
    (fun i hi hi2 => by
      have a₁ : i ≤ 2 := by omega
      simp [a₁])
    rfl (by decide)

/-! ### C5: an empty or null backend result is not retried -/

/-- Claim C5: if the first `j - 1` calls raise and call `j ≤ retries`
returns an empty or null result, `translate_with_retry` resolves to the
original source text having made exactly `j` backend calls: the empty
result is not retried (and, the embedding being total, nothing is raised).
The claim's base case is `j = 1`: an empty result on the first call. -/
theorem claim5_empty_result_immediate_fallback (calls : BackendCalls)
    (text : String) (j retries : Nat) (r : Option String) (sb : PyRat)
    (htext : text ≠ "") (hj : 1 ≤ j) (hjr : j ≤ retries)
    (hfail : ∀ i, 1 ≤ i → i < j → calls i = .error ())
    (hres : calls j = .ok r) (hempty : r = none ∨ r = some "") :
    (translate_with_retry calls text retries sb).result = text ∧
    (translate_with_retry calls text retries sb).calls = j := by
  unfold translate_with_retry
  simp only [htext, if_false]
  rw [retryFrom_failPrefix' calls text retries sb (j - 1) 1 retries (by omega)
    le_rfl (by omega) (fun i hi hi2 => hfail i hi (by omega))]
  have h3 : retries + 1 - (1 + (j - 1)) = (retries - j) + 1 := by omega
  have h2 : 1 + (j - 1) = j := by omega
  rw [h3, h2, retryFrom_ok_falsy calls text retries sb j (retries - j) r hres hempty]
  exact ⟨rfl, by show j - 1 + 1 = j; omega⟩

/-- Witness for C5: an empty string returned on the very first call. -/
theorem claim5_witness :
    (("Bonjour" : String) ≠ "" ∧ 1 ≤ 3) ∧
    (translate_with_retry (fun _ => .ok (some "")) "Bonjour" 3 ⟨1, 2⟩).result
      = "Bonjour" ∧
    (translate_with_retry (fun _ => .ok (some "")) "Bonjour" 3 ⟨1, 2⟩).calls = 1 := by
  refine ⟨⟨by decide, by decide⟩, ?_, ?_⟩
  · exact (claim5_empty_result_immediate_fallback (fun _ => .ok (some ""))
      "Bonjour" 1 3 (some "") ⟨1, 2⟩ (by decide) le_rfl (by omega)
      (fun i hi hi2 => by omega) rfl (Or.inr rfl)).1
  · exact (claim5_empty_result_immediate_fallback (fun _ => .ok (some ""))
      "Bonjour" 1 3 (some "") ⟨1, 2⟩ (by decide) le_rfl (by omega)
      (fun i hi hi2 => by omega) rfl (Or.inr rfl)).2

/-! ### C1: identity preservation of the pipeline -/

/-- Claim C1: when every input block has non-empty text, the
`translate_blocks_deep` output has exactly one block per input identity
`(page_index, block_index)` (same page count, same per-page block count),
each output block's text is non-empty and is either a non-empty string
returned by that task's backend or the original source text, and an
identity missing from the result map (`tmap p b = none` in the reassembly)
defaults to the source text. -/
theorem claim1_identity_preservation (backend : DocBackend)
    (pages : List (List Block))
    (hne : ∀ page ∈ pages, ∀ blk ∈ page, blk.text ≠ "") :
    (translate_blocks_deep backend pages).length = pages.length ∧
    (∀ p page, pages.get? p = some page →
      ∃ opage, (translate_blocks_deep backend pages).get? p = some opage ∧
        opage.length = page.length) ∧
    (∀ p b page blk opage oblk, pages.get? p = some page →
      page.get? b = some blk →
      (translate_blocks_deep backend pages).get? p = some opage →
      opage.get? b = some oblk →
      oblk.text ≠ "" ∧
      (oblk.text = blk.text ∨
        ∃ a t, backend p b a = .ok (some t) ∧ t ≠ "" ∧ oblk.text = t)) ∧
    (∀ (tmap : Nat → Nat → Option String) (p b : Nat) page blk opage oblk,
      tmap p b = none → pages.get? p = some page → page.get? b = some blk →
      (reassemble tmap 0 pages).get? p = some opage →
      opage.get? b = some oblk → oblk.text = blk.text) := by
  refine ⟨reassemble_length _ pages 0, ?_, ?_, ?_⟩
  · intro p page hp
    unfold translate_blocks_deep
    rw [reassemble_get?, hp]
    exact ⟨_, rfl, reassemblePage_length _ _ page 0⟩
  · intro p b page blk opage oblk hp hb hop hob
    obtain ⟨opage', hop', hob'⟩ :=
      translate_blocks_deep_get? backend pages p b page blk hp hb
    rw [hop'] at hop
    cases hop
    rw [hob'] at hob
    cases hob
    have hblk : blk.text ≠ "" :=
      hne page (List.get?_mem hp) blk (List.get?_mem hb)
    have hnt : (translate_with_retry (backend p b) blk.text).result ≠ "" :=
      translate_with_retry_result_ne (backend p b) blk.text 3 ⟨1, 2⟩ hblk
    constructor
    · show (let nt := (translate_with_retry (backend p b) blk.text).result
        if nt = "" then "" else nt) ≠ ""
      simp only [hnt, if_false]
      exact hnt
    · have htext : ({ blk with text :=
          let nt := (translate_with_retry (backend p b) blk.text).result
          if nt = "" then "" else nt } : Block).text =
          (translate_with_retry (backend p b) blk.text).result := by
        simp only [hnt, if_false]
      rw [htext]
      rcases translate_with_retry_result_cases (backend p b) blk.text 3 ⟨1, 2⟩ with
        h | ⟨a, t, ha, ht, h⟩
      · left; exact h
      · right; exact ⟨a, t, ha, ht, h⟩
  · intro tmap p b page blk opage oblk hnone hp hb hop hob
    rw [reassemble_get?, hp, Option.map_some'] at hop
    cases hop
    rw [reassemblePage_get?, hb, Option.map_some'] at hob
    cases hob
    show (let nt := (tmap (0 + p) (0 + b)).getD blk.text
      if nt = "" then "" else nt) = blk.text
    rw [Nat.zero_add, Nat.zero_add, hnone]
    by_cases hblk : blk.text = "" <;> simp [hblk, Option.getD]

/-- Witness for C1 on a one-page, one-block document. -/
theorem claim1_witness :
    (∀ page ∈
        [[Block.mk (.num ⟨0, 1⟩) (.num ⟨0, 1⟩) (.num ⟨100, 1⟩) (.num ⟨20, 1⟩) "Bonjour"]],
      ∀ blk ∈ page, blk.text ≠ "") ∧
    (translate_blocks_deep (fun _ _ _ => .ok (some "Hello"))
      [[Block.mk (.num ⟨0, 1⟩) (.num ⟨0, 1⟩) (.num ⟨100, 1⟩) (.num ⟨20, 1⟩) "Bonjour"]]).length
      = 1 := by
  refine ⟨by decide, ?_⟩
  exact (claim1_identity_preservation (fun _ _ _ => .ok (some "Hello"))
    [[Block.mk (.num ⟨0, 1⟩) (.num ⟨0, 1⟩) (.num ⟨100, 1⟩) (.num ⟨20, 1⟩) "Bonjour"]]
    (by decide)).1

/-! ### C10: everything but the text is preserved -/

/-- Claim C10: `translate_blocks_deep` preserves the page count, each
page's block count, and every block's four coordinates; only the text field
may differ. -/
theorem claim10_frame_preservation (backend : DocBackend)
    (pages : List (List Block)) :
    (translate_blocks_deep backend pages).length = pages.length ∧
    (∀ p page, pages.get? p = some page →
      ∃ opage, (translate_blocks_deep backend pages).get? p = some opage ∧
        opage.length = page.length) ∧
    (∀ p b page blk, pages.get? p = some page → page.get? b = some blk →
      ∃ opage oblk, (translate_blocks_deep backend pages).get? p = some opage ∧
        opage.get? b = some oblk ∧ oblk.x0 = blk.x0 ∧ oblk.y0 = blk.y0 ∧
        oblk.x1 = blk.x1 ∧ oblk.y1 = blk.y1) := by
  refine ⟨reassemble_length _ pages 0, ?_, ?_⟩
  · intro p page hp
    unfold translate_blocks_deep
    rw [reassemble_get?, hp]
    exact ⟨_, rfl, reassemblePage_length _ _ page 0⟩
  · intro p b page blk hp hb
    obtain ⟨opage, hop, hob⟩ :=
      translate_blocks_deep_get? backend pages p b page blk hp hb
    exact ⟨opage, _, hop, hob, rfl, rfl, rfl, rfl⟩

/-- Witness for C10 on a one-page, one-block document with an
always-translating backend. -/
theorem claim10_witness :
    ([[Block.mk (.num ⟨1, 1⟩) (.num ⟨2, 1⟩) (.num ⟨3, 1⟩) (.num ⟨4, 1⟩) "Bonjour"]].get? 0 =
        some [Block.mk (.num ⟨1, 1⟩) (.num ⟨2, 1⟩) (.num ⟨3, 1⟩) (.num ⟨4, 1⟩) "Bonjour"]) ∧
    (∃ opage oblk,
      (translate_blocks_deep (fun _ _ _ => .ok (some "Hello"))
        [[Block.mk (.num ⟨1, 1⟩) (.num ⟨2, 1⟩) (.num ⟨3, 1⟩) (.num ⟨4, 1⟩) "Bonjour"]]).get? 0
        = some opage ∧
      opage.get? 0 = some oblk ∧
      oblk.x0 = RawField.num ⟨1, 1⟩ ∧ oblk.y0 = RawField.num ⟨2, 1⟩ ∧
      oblk.x1 = RawField.num ⟨3, 1⟩ ∧ oblk.y1 = RawField.num ⟨4, 1⟩) := by
  refine ⟨rfl, ?_⟩
  exact (claim10_frame_preservation (fun _ _ _ => .ok (some "Hello"))
    [[Block.mk (.num ⟨1, 1⟩) (.num ⟨2, 1⟩) (.num ⟨3, 1⟩) (.num ⟨4, 1⟩) "Bonjour"]]).2.2
    0 0 _ _ rfl rfl

/-! ### Lemmas about the font-fit loop -/

/-- Full characterization of the fit loop when started at or above the
floor with enough fuel: it commits to the first font size `c`, scanning
down from `fontsize`, whose estimated needed height fits or which equals
the floor; it runs `fontsize - c + 1` iterations; it inserts at `[c]` when
the engine accepts size `c`, otherwise at `[c, min_fontsize]` with an
exception escaping iff the floor insertion also fails. -/
lemma fitLoop_spec (engineOk : Nat → Bool) (rect_w rect_h : PyRat)
    (total_chars min_fontsize : Nat) (lsm : PyRat) :
    ∀ fuel fontsize, fontsize < fuel → min_fontsize ≤ fontsize →
    ∃ c, min_fontsize ≤ c ∧ c ≤ fontsize ∧
      ((neededHeight rect_w total_chars lsm c).le rect_h ∨ c = min_fontsize) ∧
      (∀ g, c < g → g ≤ fontsize →
        ¬ (neededHeight rect_w total_chars lsm g).le rect_h) ∧
      fitLoop engineOk rect_w rect_h total_chars min_fontsize lsm fuel fontsize =
        if engineOk c then ⟨[c], fontsize - c + 1, false⟩
        else ⟨[c, min_fontsize], fontsize - c + 1, !engineOk min_fontsize⟩ := by
  intro fuel
  induction fuel with
  | zero => intro fontsize h _; omega
  | succ fuel ih =>
    intro fontsize hlt hmin
    by_cases hfit : (neededHeight rect_w total_chars lsm fontsize).le rect_h
        ∨ fontsize = min_fontsize
    · refine ⟨fontsize, hmin, le_rfl, hfit, fun g hg hg2 => by omega, ?_⟩
      simp only [fitLoop, if_pos hmin, if_pos hfit, Nat.sub_self]
    · push_neg at hfit
      obtain ⟨hnofit, hne⟩ := hfit
      obtain ⟨c, hc1, hc2, hc3, hc4, hc5⟩ :=
        ih (fontsize - 1) (by omega) (by omega)
      refine ⟨c, hc1, by omega, hc3, ?_, ?_⟩
      · intro g hg hg2
        by_cases hgf : g = fontsize
        · subst hgf; exact hnofit
        · exact hc4 g hg (by omega)
      · have hbody : fitLoop engineOk rect_w rect_h total_chars min_fontsize
            lsm (fuel + 1) fontsize =
            ⟨(fitLoop engineOk rect_w rect_h total_chars min_fontsize lsm
                fuel (fontsize - 1)).inserts,
             (fitLoop engineOk rect_w rect_h total_chars min_fontsize lsm
                fuel (fontsize - 1)).iterations + 1,
             (fitLoop engineOk rect_w rect_h total_chars min_fontsize lsm
                fuel (fontsize - 1)).raised⟩ := by
          simp only [fitLoop, if_pos hmin, if_neg (not_or.mpr ⟨hnofit, hne⟩)]
        rw [hbody, hc5]
        have harith : fontsize - 1 - c + 1 + 1 = fontsize - c + 1 := by omega
        by_cases he : engineOk c <;> simp [he, harith]

/-! ### C6: font-fit termination and floor -/

/-- Claim C6: with `initial_fontsize ≥ min_fontsize` (and a positive floor,
so Python's division by zero is out of the picture) and non-empty trimmed
text, the fit loop runs at most `initial_fontsize - min_fontsize + 1`
iterations, and every font size passed to a text insertion call is at least
`min_fontsize`. -/
theorem claim6_fontfit_termination (engineOk : Nat → Bool)
    (rect_w rect_h : PyRat) (text : String)
    (initial_fontsize min_fontsize : Nat) (lsm : PyRat)
    (hmin : 1 ≤ min_fontsize) (hinit : min_fontsize ≤ initial_fontsize)
    (htext : pyStrip text ≠ "") :
    (insert_textbox_fitted engineOk rect_w rect_h text initial_fontsize
      min_fontsize lsm).iterations ≤ initial_fontsize - min_fontsize + 1 ∧
    ∀ f ∈ (insert_textbox_fitted engineOk rect_w rect_h text initial_fontsize
      min_fontsize lsm).inserts, min_fontsize ≤ f := by
  unfold insert_textbox_fitted
  simp only [if_neg htext]
  obtain ⟨c, hc1, hc2, _, _, heq⟩ :=
    fitLoop_spec engineOk rect_w rect_h (pyStrip text).length min_fontsize lsm
      (initial_fontsize + 1) initial_fontsize (by omega) hinit
  rw [heq]
  by_cases he : engineOk c <;> simp [he] <;> omega

/-- Witness for C6 at a concrete rectangle and text. -/
theorem claim6_witness :
    (1 ≤ 6 ∧ 6 ≤ 10 ∧ pyStrip "Hello" ≠ "") ∧
    ((insert_textbox_fitted (fun _ => true) ⟨100, 1⟩ ⟨20, 1⟩ "Hello" 10 6
        ⟨23, 20⟩).iterations ≤ 10 - 6 + 1 ∧
      ∀ f ∈ (insert_textbox_fitted (fun _ => true) ⟨100, 1⟩ ⟨20, 1⟩ "Hello"
        10 6 ⟨23, 20⟩).inserts, 6 ≤ f) :=
  ⟨⟨by decide, by decide, by decide⟩,
    claim6_fontfit_termination (fun _ => true) ⟨100, 1⟩ ⟨20, 1⟩ "Hello" 10 6
      ⟨23, 20⟩ (by decide) (by decide) (by decide)⟩

/-! ### C7: which font size is committed (corrected) -/

/-- Modelled from the spec (claim C7's formula): the estimated needed
height with real-valued characters-per-line
`max(20, rect_w / (fontsize * 0.5))`, without the `int(...)` truncation the
code applies.  `PyRat.max` mirrors Python's binary `max`. -/
def PyRat.max (a b : PyRat) : PyRat := if a.le b then b else a

/-- Modelled from the spec (claim C7's formula), for comparison with
`neededHeight`. -/
def specNeededHeight (rect_w : PyRat) (total_chars : Nat) (lsm : PyRat)
    (fontsize : Nat) : PyRat :=
  let cpl : PyRat := PyRat.max ⟨20, 1⟩ (rect_w.div (PyRat.mul ⟨fontsize, 1⟩ ⟨1, 2⟩))
  let lines : Nat := (PyRat.div ⟨total_chars, 1⟩ cpl).ceil.toNat
  PyRat.mul (PyRat.mul ⟨lines, 1⟩ ⟨fontsize, 1⟩) lsm

/-- Modelled from the spec (claim C7): the first font size, scanning down
from `fontsize`, at which the claim's estimated needed height fits the
rectangle height or the floor is reached. -/
def specCommittedFontsize (rect_w rect_h : PyRat) (total_chars : Nat)
    (min_fontsize : Nat) (lsm : PyRat) : Nat → Nat → Nat
  | 0, _ => min_fontsize
  | fuel + 1, fontsize =>
    if min_fontsize ≤ fontsize then
      if (specNeededHeight rect_w total_chars lsm fontsize).le rect_h
          ∨ fontsize = min_fontsize then fontsize
      else specCommittedFontsize rect_w rect_h total_chars min_fontsize lsm
        fuel (fontsize - 1)
    else min_fontsize

/-- Counterexample to claim C7: in a 102.5 × 30 rectangle with 41
characters of text (defaults: initial size 10, floor 6, line spacing 1.15),
the claim's real-valued formula fits already at size 10 — the claimed
committed size is 10 — but the code, whose `est_chars_per_line` is
truncated by `int(...)`, estimates size 10 as not fitting and commits to
size 9. -/
theorem claim7_formula_counterexample :
    (insert_textbox_fitted (fun _ => true) ⟨205, 2⟩ ⟨30, 1⟩
      "aaaaaaaaaaaaaaaaaaaaaaaaaaaaaaaaaaaaaaaaa").inserts = [9] ∧
    specCommittedFontsize ⟨205, 2⟩ ⟨30, 1⟩ 41 6 ⟨23, 20⟩ 11 10 = 10 ∧
    (specNeededHeight ⟨205, 2⟩ 41 ⟨23, 20⟩ 10).le ⟨30, 1⟩ ∧
    ¬ (neededHeight ⟨205, 2⟩ 41 ⟨23, 20⟩ 10).le ⟨30, 1⟩ := by
  decide

/-- Claim C7 as amended: the committed size (the first insertion's font
size) is the first size, scanning down from `initial_fontsize` in steps of
1, at which the estimated needed height — with
`est_chars_per_line = max(20, int(rect_w / (fontsize * 0.5)))`, i.e. the
claimed formula with the code's integer truncation — fits the rectangle
height, or the floor `min_fontsize` is reached. -/
theorem claim7_amended_first_fit (engineOk : Nat → Bool)
    (rect_w rect_h : PyRat) (text : String)
    (initial_fontsize min_fontsize : Nat) (lsm : PyRat)
    (hmin : 1 ≤ min_fontsize) (hinit : min_fontsize ≤ initial_fontsize)
    (htext : pyStrip text ≠ "") :
    ∃ c, (insert_textbox_fitted engineOk rect_w rect_h text initial_fontsize
        min_fontsize lsm).inserts.head? = some c ∧
      min_fontsize ≤ c ∧ c ≤ initial_fontsize ∧
      ((neededHeight rect_w (pyStrip text).length lsm c).le rect_h ∨
        c = min_fontsize) ∧
      ∀ g, c < g → g ≤ initial_fontsize →
        ¬ (neededHeight rect_w (pyStrip text).length lsm g).le rect_h := by
  unfold insert_textbox_fitted
  simp only [if_neg htext]
  obtain ⟨c, hc1, hc2, hc3, hc4, heq⟩ :=
    fitLoop_spec engineOk rect_w rect_h (pyStrip text).length min_fontsize lsm
      (initial_fontsize + 1) initial_fontsize (by omega) hinit
  refine ⟨c, ?_, hc1, hc2, hc3, hc4⟩
  rw [heq]
  by_cases he : engineOk c <;> simp [he]

/-- Witness for the amended C7. -/
theorem claim7_amended_witness :
    (1 ≤ 6 ∧ 6 ≤ 10 ∧ pyStrip "Hello" ≠ "") ∧
    (∃ c, (insert_textbox_fitted (fun _ => true) ⟨100, 1⟩ ⟨20, 1⟩ "Hello" 10 6
        ⟨23, 20⟩).inserts.head? = some c ∧
      6 ≤ c ∧ c ≤ 10 ∧
      ((neededHeight ⟨100, 1⟩ (pyStrip "Hello").length ⟨23, 20⟩ c).le ⟨20, 1⟩ ∨
        c = 6) ∧
      ∀ g, c < g → g ≤ 10 →
        ¬ (neededHeight ⟨100, 1⟩ (pyStrip "Hello").length ⟨23, 20⟩ g).le ⟨20, 1⟩) :=
  ⟨⟨by decide, by decide, by decide⟩,
    claim7_amended_first_fit (fun _ => true) ⟨100, 1⟩ ⟨20, 1⟩ "Hello" 10 6
      ⟨23, 20⟩ (by decide) (by decide) (by decide)⟩

/-! ### C8: failure handling of the insertion calls (corrected) -/

/-- Counterexample to claim C8: with an engine that rejects the insertion
at every font size, a 100 × 20 rectangle and the text "Hello" (defaults:
initial size 10, floor 6), `insert_textbox_fitted` makes the committed
insertion at size 10 and the single floor retry at size 6, and the floor
retry's exception escapes to the caller (`raised = true`), contradicting
"never propagates an exception to its caller, even if that floor-size
attempt also fails". -/
theorem claim8_propagation_counterexample :
    (insert_textbox_fitted (fun _ => false) ⟨100, 1⟩ ⟨20, 1⟩ "Hello").raised
      = true ∧
    (insert_textbox_fitted (fun _ => false) ⟨100, 1⟩ ⟨20, 1⟩ "Hello").inserts
      = [10, 6] := by
  decide

/-- Claim C8 as amended: if the engine rejects the insertion at the
committed size, exactly one further insertion attempt is made, at the floor
size `min_fontsize`; that floor attempt is not protected, so an exception
escapes to the caller iff the floor-size attempt also fails. -/
theorem claim8_amended_floor_retry (engineOk : Nat → Bool)
    (rect_w rect_h : PyRat) (text : String)
    (initial_fontsize min_fontsize : Nat) (lsm : PyRat) (c : Nat)
    (hmin : 1 ≤ min_fontsize) (hinit : min_fontsize ≤ initial_fontsize)
    (htext : pyStrip text ≠ "")
    (hc : (insert_textbox_fitted engineOk rect_w rect_h text initial_fontsize
        min_fontsize lsm).inserts.head? = some c)
    (hfail : engineOk c = false) :
    (insert_textbox_fitted engineOk rect_w rect_h text initial_fontsize
      min_fontsize lsm).inserts = [c, min_fontsize] ∧
    (insert_textbox_fitted engineOk rect_w rect_h text initial_fontsize
      min_fontsize lsm).raised = !engineOk min_fontsize := by
  unfold insert_textbox_fitted at hc ⊢
  simp only [if_neg htext] at hc ⊢
  obtain ⟨c', _, _, _, _, heq⟩ :=
    fitLoop_spec engineOk rect_w rect_h (pyStrip text).length min_fontsize lsm
      (initial_fontsize + 1) initial_fontsize (by omega) hinit
  rw [heq] at hc ⊢
  by_cases he : engineOk c'
  · simp only [he, if_true, List.head?_cons] at hc
    cases hc
    rw [hfail] at he
    cases he
  · simp only [he, if_false, List.head?_cons] at hc
    cases hc
    simp [he]

/-- Witness for the amended C8 with an engine failing at every size. -/
theorem claim8_amended_witness :
    (1 ≤ 6 ∧ 6 ≤ 10 ∧ pyStrip "Hello" ≠ "" ∧
      (insert_textbox_fitted (fun _ => false) ⟨100, 1⟩ ⟨20, 1⟩ "Hello" 10 6
        ⟨23, 20⟩).inserts.head? = some 10 ∧
      (fun _ : Nat => false) 10 = false) ∧
    ((insert_textbox_fitted (fun _ => false) ⟨100, 1⟩ ⟨20, 1⟩ "Hello" 10 6
        ⟨23, 20⟩).inserts = [10, 6] ∧
      (insert_textbox_fitted (fun _ => false) ⟨100, 1⟩ ⟨20, 1⟩ "Hello" 10 6
        ⟨23, 20⟩).raised = !(fun _ : Nat => false) 6) :=
  ⟨⟨by decide, by decide, by decide, by decide, rfl⟩,
    claim8_amended_floor_retry (fun _ => false) ⟨100, 1⟩ ⟨20, 1⟩ "Hello" 10 6
      ⟨23, 20⟩ 10 (by decide) (by decide) (by decide) (by decide) rfl⟩

/-! ### C9: which raw blocks are kept at extraction -/

/-- Claim C9: a raw block with fewer than 5 fields is dropped; a raw block
whose 5th field is the string `s` is kept iff its trimmed text is
non-empty, and when kept the output block stores the first four fields as
coordinates and the trimmed text; a whitespace-only raw block is dropped
and so its kept form occurs in no page of `extract_blocks_from_pdf`'s
output. -/
theorem claim9_extraction_filter (block : List RawField) :
    (block.length < 5 → processRawBlock block = none) ∧
    (∀ s, block.get? 4 = some (.str s) →
      ((∃ b, processRawBlock block = some b) ↔ pyStrip s ≠ "") ∧
      (∀ b, processRawBlock block = some b →
        block.get? 0 = some b.x0 ∧ block.get? 1 = some b.y0 ∧
        block.get? 2 = some b.x1 ∧ block.get? 3 = some b.y1 ∧
        b.text = pyStrip s) ∧
      (pyStrip s = "" → ∀ pages page b,
        page ∈ extract_blocks_from_pdf pages → b ∈ page →
        processRawBlock block ≠ some b)) := by
  constructor
  · intro h
    unfold processRawBlock
    rw [if_pos h]
  · intro s hs
    rcases block with _ | ⟨f0, block⟩; · cases hs
    rcases block with _ | ⟨f1, block⟩; · cases hs
    rcases block with _ | ⟨f2, block⟩; · cases hs
    rcases block with _ | ⟨f3, block⟩; · cases hs
    rcases block with _ | ⟨f4, rest⟩; · cases hs
    have hf4 : f4 = .str s := by simpa using hs
    subst hf4
    have hnotlt : ¬ (f0 :: f1 :: f2 :: f3 :: RawField.str s :: rest).length < 5 := by
      simp
    by_cases hws : pyStrip s = ""
    · have hnone :
          processRawBlock (f0 :: f1 :: f2 :: f3 :: RawField.str s :: rest) = none := by
        unfold processRawBlock
        rw [if_neg hnotlt]
        simp [RawField.toStr, hws]
      refine ⟨⟨?_, fun h => absurd hws h⟩, ?_, ?_⟩
      · rintro ⟨b, hb⟩
        rw [hnone] at hb
        cases hb
      · intro b hb
        rw [hnone] at hb
        cases hb
      · intro _ pages page b _ _
        rw [hnone]
        exact fun h => Option.noConfusion h
    · have hs' : s ≠ "" := fun h => hws (by rw [h]; rfl)
      have hsome :
          processRawBlock (f0 :: f1 :: f2 :: f3 :: RawField.str s :: rest) =
            some ⟨f0, f1, f2, f3, pyStrip s⟩ := by
        unfold processRawBlock
        rw [if_neg hnotlt]
        simp [RawField.toStr, RawField.truthy, hws, hs']
      refine ⟨⟨fun _ => hws, fun _ => ⟨_, hsome⟩⟩, ?_, fun h => absurd h hws⟩
      intro b hb
      rw [hsome] at hb
      cases hb
      exact ⟨rfl, rfl, rfl, rfl, rfl⟩

/-- Witness for C9: a 5-field raw block whose text is all whitespace is
dropped. -/
theorem claim9_witness :
    ([RawField.num ⟨1, 1⟩, .num ⟨2, 1⟩, .num ⟨3, 1⟩, .num ⟨4, 1⟩,
        .str "   "].get? 4 = some (RawField.str "   ")) ∧
    ¬ ∃ b, processRawBlock [RawField.num ⟨1, 1⟩, .num ⟨2, 1⟩, .num ⟨3, 1⟩,
        .num ⟨4, 1⟩, .str "   "] = some b := by
  refine ⟨rfl, fun hex => ?_⟩
  exact (by decide : ¬ (pyStrip "   " ≠ ""))
    ((((claim9_extraction_filter [RawField.num ⟨1, 1⟩, .num ⟨2, 1⟩,
      .num ⟨3, 1⟩, .num ⟨4, 1⟩, .str "   "]).2 "   " rfl).1).mp hex)

end PdfApp
